import Mathlib

/-!
Verification of the Retrieval-Augmented Component Index (RCI) core:
a shallow embedding of the parser, embedder, vector store, smart cache
and orchestrating service, together with proofs about their behaviour.

JavaScript strings are modelled as Lean `String` (sequences of `Char`),
JavaScript numbers as `ℚ` (the claims under study do not depend on
binary floating-point rounding), and the file-system / remote-provider
effects as explicit inputs (file contents, provider call outcomes).
-/

namespace RCI

/- ### Basic string operations (models of the JavaScript string methods) -/

/-- Model of `String.prototype.toLowerCase` (character-wise lowering). -/
def strLower (s : String) : String :=
  ⟨s.data.map Char.toLower⟩

/-- Characters of a string with surrounding whitespace removed. -/
def trimChars (l : List Char) : List Char :=
  ((l.dropWhile Char.isWhitespace).reverse.dropWhile Char.isWhitespace).reverse

/-- Model of `String.prototype.trim`. -/
def strTrim (s : String) : String :=
  ⟨trimChars s.data⟩

/-- Does the first character list start with the second one? -/
def startsWithChars : List Char → List Char → Bool
  | _, [] => true
  | [], _ :: _ => false
  | a :: as, b :: bs => a == b && startsWithChars as bs

/-- Model of `String.prototype.startsWith`. -/
def strStartsWith (s pat : String) : Bool :=
  startsWithChars s.data pat.data

/-- Does the pattern occur as a contiguous run inside the list? -/
def occursInChars : List Char → List Char → Bool
  | [], pat => pat.isEmpty
  | a :: rest, pat => startsWithChars (a :: rest) pat || occursInChars rest pat

/-- Model of `String.prototype.includes` (substring containment). -/
def strIncludes (s pat : String) : Bool :=
  occursInChars s.data pat.data

/-- Split a character list at every occurrence of the given character. -/
def splitAtChar (sep : Char) : List Char → List (List Char)
  | [] => [[]]
  | a :: rest =>
    let r := splitAtChar sep rest
    if a == sep then [] :: r
    else match r with
      | [] => [[a]]
      | g :: gs => (a :: g) :: gs

/-- Model of `content.split('\n')`. -/
def strSplitNl (s : String) : List String :=
  (splitAtChar (Char.ofNat 10) s.data).map String.mk

/-- Model of `array.join(sep)` for string arrays. -/
def strJoin (sep : String) : List String → String
  | [] => ""
  | [a] => a
  | a :: b :: rest => a ++ sep ++ strJoin sep (b :: rest)

/-- Model of `String.prototype.slice(0, n)` (first `n` characters). -/
def strSlice (s : String) (n : Nat) : String :=
  ⟨s.data.take n⟩

/- ### MD5 (model of Node's `crypto.createHash('md5')`)

The digest is computed over the UTF-8 bytes of the input string, exactly
as Node's `hash.update(string)` does. All 32-bit arithmetic is carried
out on `Nat` with explicit reduction modulo `2 ^ 32`. -/

/-- UTF-8 encoding of one character, as byte values. -/
def utf8EncodeCharNat (c : Char) : List Nat :=
  let n := c.toNat
  if n < 128 then [n]
  else if n < 2048 then [192 + n / 64, 128 + n % 64]
  else if n < 65536 then [224 + n / 4096, 128 + n / 64 % 64, 128 + n % 64]
  else [240 + n / 262144, 128 + n / 4096 % 64, 128 + n / 64 % 64, 128 + n % 64]

/-- UTF-8 bytes of a string. -/
def utf8Bytes (s : String) : List Nat :=
  s.data.flatMap utf8EncodeCharNat

/-- Addition modulo `2 ^ 32`. -/
def add32 (a b : Nat) : Nat := (a + b) % 4294967296

/-- Bitwise complement on 32 bits. -/
def lnot32 (a : Nat) : Nat := Nat.xor a 4294967295

/-- Left rotation of a 32-bit word by `s` bits. -/
def rotl32 (x s : Nat) : Nat :=
  Nat.lor ((x <<< s) % 4294967296) (x >>> (32 - s))

/-- MD5 round constants `K[i] = floor(2^32 * abs(sin(i+1)))`. -/
def md5K : List Nat :=
  [0xd76aa478, 0xe8c7b756, 0x242070db, 0xc1bdceee,
   0xf57c0faf, 0x4787c62a, 0xa8304613, 0xfd469501,
   0x698098d8, 0x8b44f7af, 0xffff5bb1, 0x895cd7be,
   0x6b901122, 0xfd987193, 0xa679438e, 0x49b40821,
   0xf61e2562, 0xc040b340, 0x265e5a51, 0xe9b6c7aa,
   0xd62f105d, 0x02441453, 0xd8a1e681, 0xe7d3fbc8,
   0x21e1cde6, 0xc33707d6, 0xf4d50d87, 0x455a14ed,
   0xa9e3e905, 0xfcefa3f8, 0x676f02d9, 0x8d2a4c8a,
   0xfffa3942, 0x8771f681, 0x6d9d6122, 0xfde5380c,
   0xa4beea44, 0x4bdecfa9, 0xf6bb4b60, 0xbebfbc70,
   0x289b7ec6, 0xeaa127fa, 0xd4ef3085, 0x04881d05,
   0xd9d4d039, 0xe6db99e5, 0x1fa27cf8, 0xc4ac5665,
   0xf4292244, 0x432aff97, 0xab9423a7, 0xfc93a039,
   0x655b59c3, 0x8f0ccc92, 0xffeff47d, 0x85845dd1,
   0x6fa87e4f, 0xfe2ce6e0, 0xa3014314, 0x4e0811a1,
   0xf7537e82, 0xbd3af235, 0x2ad7d2bb, 0xeb86d391]

/-- MD5 per-round shift amounts. -/
def md5S : List Nat :=
  [7, 12, 17, 22, 7, 12, 17, 22, 7, 12, 17, 22, 7, 12, 17, 22,
   5, 9, 14, 20, 5, 9, 14, 20, 5, 9, 14, 20, 5, 9, 14, 20,
   4, 11, 16, 23, 4, 11, 16, 23, 4, 11, 16, 23, 4, 11, 16, 23,
   6, 10, 15, 21, 6, 10, 15, 21, 6, 10, 15, 21, 6, 10, 15, 21]

/-- Running state of the MD5 compression function. -/
structure MD5State where
  a : Nat
  b : Nat
  c : Nat
  d : Nat

/-- Little-endian 8-byte encoding of a number (for the length field). -/
def le8 (x : Nat) : List Nat :=
  [x % 256, x / 2 ^ 8 % 256, x / 2 ^ 16 % 256, x / 2 ^ 24 % 256,
   x / 2 ^ 32 % 256, x / 2 ^ 40 % 256, x / 2 ^ 48 % 256, x / 2 ^ 56 % 256]

/-- Little-endian 4-byte encoding of a 32-bit word. -/
def le4 (x : Nat) : List Nat :=
  [x % 256, x / 256 % 256, x / 65536 % 256, x / 16777216 % 256]

/-- MD5 message padding: `0x80`, zeros to 56 mod 64, then the bit length. -/
def md5pad (msg : List Nat) : List Nat :=
  msg ++ [128] ++ List.replicate ((119 - msg.length % 64) % 64) 0
      ++ le8 (8 * msg.length % 2 ^ 64)

/-- Group a byte list into little-endian 32-bit words. -/
def leWords : List Nat → List Nat
  | b0 :: b1 :: b2 :: b3 :: rest =>
    (b0 + b1 * 256 + b2 * 65536 + b3 * 16777216) :: leWords rest
  | _ => []

/-- Split a list into blocks of 64 entries (fuel-driven for reducibility). -/
def blocks64Go : Nat → List Nat → List (List Nat)
  | 0, _ => []
  | _, [] => []
  | fuel + 1, a :: rest => ((a :: rest).take 64) :: blocks64Go fuel ((a :: rest).drop 64)

/-- Split a byte list into 64-byte blocks. -/
def blocks64 (l : List Nat) : List (List Nat) :=
  blocks64Go l.length l

/-- One MD5 round: mixes round `i` of the 64 rounds into the state. -/
def md5step (m : List Nat) (st : MD5State) (i : Nat) : MD5State :=
  let fg : Nat × Nat :=
    if i < 16 then
      (Nat.lor (Nat.land st.b st.c) (Nat.land (lnot32 st.b) st.d), i)
    else if i < 32 then
      (Nat.lor (Nat.land st.d st.b) (Nat.land (lnot32 st.d) st.c), (5 * i + 1) % 16)
    else if i < 48 then
      (Nat.xor (Nat.xor st.b st.c) st.d, (3 * i + 5) % 16)
    else
      (Nat.xor st.c (Nat.lor st.b (lnot32 st.d)), (7 * i) % 16)
  let f := add32 (add32 (add32 fg.1 st.a) (md5K.getD i 0)) (m.getD fg.2 0)
  ⟨st.d, add32 st.b (rotl32 f (md5S.getD i 0)), st.b, st.c⟩

/-- MD5 compression of one 64-byte block into the state. -/
def md5block (st : MD5State) (block : List Nat) : MD5State :=
  let m := leWords block
  let r := (List.range 64).foldl (md5step m) st
  ⟨add32 st.a r.a, add32 st.b r.b, add32 st.c r.c, add32 st.d r.d⟩

/-- The 16 digest bytes of the MD5 of a byte message. -/
def md5digestBytes (msg : List Nat) : List Nat :=
  let st := (blocks64 (md5pad msg)).foldl md5block
      ⟨0x67452301, 0xefcdab89, 0x98badcfe, 0x10325476⟩
  le4 st.a ++ le4 st.b ++ le4 st.c ++ le4 st.d

/-- Lowercase hexadecimal digit for a value below 16. -/
def hexDigit (n : Nat) : Char :=
  if n < 10 then Char.ofNat (48 + n) else Char.ofNat (87 + n)

/-- Two hexadecimal characters of one byte. -/
def byteHex (b : Nat) : List Char :=
  [hexDigit (b / 16), hexDigit (b % 16)]

/-- Model of `crypto.createHash('md5').update(s).digest('hex')`. -/
def md5hex (s : String) : String :=
  ⟨(md5digestBytes (utf8Bytes s)).flatMap byteHex⟩

theorem length_flatMap_byteHex (l : List Nat) :
    (l.flatMap byteHex).length = 2 * l.length := by
  induction l with
  | nil => simp
  | cons a rest ih =>
    simp only [List.flatMap_cons, List.length_append, ih, byteHex,
      List.length_cons, List.length_nil]
    omega

theorem length_md5digestBytes (msg : List Nat) :
    (md5digestBytes msg).length = 16 := by
  simp [md5digestBytes, le4]

/-- The hexadecimal MD5 digest always has 32 characters. -/
theorem length_md5hex (s : String) : (md5hex s).length = 32 := by
  show ((md5digestBytes (utf8Bytes s)).flatMap byteHex).length = 32
  rw [length_flatMap_byteHex, length_md5digestBytes]

/- ### Generic helpers -/

/-- Split a list into chunks of `n` entries (fuel-driven so that it is
structurally recursive; the fuel is the list length, which always
suffices for `n ≥ 1`). -/
def chunksGo (n : Nat) : Nat → List α → List (List α)
  | 0, _ => []
  | _, [] => []
  | fuel + 1, a :: rest => ((a :: rest).take n) :: chunksGo n fuel ((a :: rest).drop n)

/-- Split a list into chunks of `n` entries. -/
def chunks (n : Nat) (l : List α) : List (List α) :=
  chunksGo n l.length l

/-- Model of JavaScript `array.map((x, index) => ...)`: map with the
running index, starting at `j`. -/
def mapWithIndexGo (f : Nat → α → β) (j : Nat) : List α → List β
  | [] => []
  | a :: rest => f j a :: mapWithIndexGo f (j + 1) rest

/-- Model of JavaScript `array.map((x, index) => ...)`. -/
def mapWithIndex (f : Nat → α → β) (l : List α) : List β :=
  mapWithIndexGo f 0 l

/- ### Data model -/

/-- Metadata attached to a stored vector document. -/
structure DocMetadata where
  componentName : String
  packageName : String
  type : String
  tags : List String
  version : String
deriving DecidableEq

/-- A stored vector document (`VectorDocument` in the source). -/
structure VectorDocument where
  id : String
  content : String
  embedding : List ℚ
  metadata : DocMetadata
deriving DecidableEq

/-- A parsed per-component record (`ComponentDoc` in the source). -/
structure ComponentDoc where
  packageName : String
  componentName : String
  description : String
  api : String
  examples : List String
  tags : List String
  version : String
  dependencies : List String
  updatedAt : String
deriving DecidableEq

/-- Result of parsing one component directory (`ParsedComponent`). -/
structure ParsedComponent where
  info : ComponentDoc
  filePath : String
  status : String
  error : Option String
deriving DecidableEq

/-- One entry of the vector index (`vectors.json` rows). -/
structure IndexEntry where
  id : String
  embedding : List ℚ
  metadata : DocMetadata
deriving DecidableEq

/-- In-memory view of the file vector store's two logical tables. -/
structure VectorStoreState where
  documents : List VectorDocument
  index : List IndexEntry
deriving DecidableEq

/-- A component-sync request (`ComponentSyncRequest`). `packages` is
`none` when the field is absent in the request. -/
structure ComponentSyncRequest where
  packages : Option (List String)
  forceReindex : Bool

/-- A component-sync response (`ComponentSyncResponse`). -/
structure ComponentSyncResponse where
  status : String
  processedCount : Nat
  successCount : Nat
  failedCount : Nat
  errors : List String
  duration : Nat

/-- Vector store statistics (`RAGIndexStats`). `packageStats` is the
insertion-ordered association list built by `getStats`. -/
structure RAGIndexStats where
  totalComponents : Nat
  totalDocuments : Nat
  indexSize : Nat
  lastUpdated : String
  packageStats : List (String × Nat)

/- ### Embedder (`OpenAIEmbeddings`) -/

/-- Model of `OpenAIEmbeddings.embedTexts`. The remote provider call
(`createEmbedding` on the happy path) is modelled from the spec: the
provider returns exactly one embedding per input text and the result is
sorted by response-side index so that output order matches input order;
this is captured by mapping a per-text embedding function `f` over the
inputs that survive the whitespace filter. -/
def embedTexts (f : String → List ℚ) (texts : List String) :
    Except String (List (List ℚ)) :=
  if texts.length = 0 then .ok []
  else
    let validTexts := texts.filter (fun text => strTrim text != "")
    if validTexts.length = 0 then .error "No valid texts provided"
    else .ok (validTexts.map f)

/-- The error message the retry loop surfaces after the final failed
attempt: the quota check, then the 401 check, then the generic wrap. -/
def classifyEmbeddingError (maxRetries : Nat) (msg : String) : String :=
  if strIncludes msg "quota" then
    "OpenAI API quota exceeded. Please check your billing."
  else if strIncludes msg "401" then
    "OpenAI API authentication failed. Please check your API key."
  else
    "OpenAI API error after " ++ toString maxRetries ++ " attempts: " ++ msg

/-- The retry loop of `OpenAIEmbeddings.createEmbedding`, with the
provider modelled as a per-attempt outcome function `call`. The
returned pair is the surfaced result together with the number of
provider calls actually performed. The first argument is the remaining
number of loop iterations (`maxRetries - attempt + 1`), which makes the
recursion structural. -/
def createEmbeddingGo (call : Nat → Except String (List (List ℚ)))
    (maxRetries : Nat) : Nat → Nat → Except String (List (List ℚ)) × Nat
  | 0, attempt =>
    (.error ("Failed to create embedding after " ++ toString maxRetries ++ " attempts"),
     attempt - 1)
  | remaining + 1, attempt =>
    match call attempt with
    | .ok r => (.ok r, attempt)
    | .error e =>
      if attempt < maxRetries then
        createEmbeddingGo call maxRetries remaining (attempt + 1)
      else
        (.error (classifyEmbeddingError maxRetries e), attempt)

/-- Model of `OpenAIEmbeddings.createEmbedding`: attempts run from 1 to
`maxRetries`; on each failure before the last attempt the loop sleeps
and retries; the quota / 401 checks run only when retries are
exhausted. -/
def createEmbedding (call : Nat → Except String (List (List ℚ)))
    (maxRetries : Nat) : Except String (List (List ℚ)) × Nat :=
  createEmbeddingGo call maxRetries maxRetries 1

/- ### File vector store (`FileVectorStore`) -/

/-- Model of `FileVectorStore.generateDocumentId`. -/
def generateDocumentId (componentName type content : String) : String :=
  componentName ++ "-" ++ type ++ "-" ++
    strSlice (md5hex (componentName ++ "-" ++ type ++ "-" ++ content)) 8

/-- Model of `FileVectorStore.addDocuments`: documents whose id already
exists in the store are skipped; the remaining ones are appended to both
tables. (Duplicates inside one call are not deduplicated, exactly as in
the source.) -/
def addDocuments (store : VectorStoreState) (documents : List VectorDocument) :
    VectorStoreState :=
  let existingIds := store.documents.map (fun doc => doc.id)
  let newDocs := documents.filter (fun doc => !(existingIds.contains doc.id))
  if newDocs.length = 0 then store
  else
    { documents := store.documents ++ newDocs,
      index := store.index ++ newDocs.map (fun doc =>
        { id := doc.id, embedding := doc.embedding, metadata := doc.metadata }) }

/-- Count occurrences per package name, in first-seen order: model of
the `packageStats[p] = (packageStats[p] || 0) + 1` accumulation. -/
def bumpCount : List (String × Nat) → String → List (String × Nat)
  | [], k => [(k, 1)]
  | (k0, n) :: rest, k =>
    if k0 == k then (k0, n + 1) :: rest else (k0, n) :: bumpCount rest k

/-- Model of `FileVectorStore.getStats`. The backing-file sizes and the
current time are effects of `fs.stat` / `Date.now` and are passed in as
inputs. `new Set(...).size` is the number of distinct entries, i.e.
`List.dedup.length`. -/
def getStats (store : VectorStoreState) (indexFileSize docsFileSize : Nat)
    (now : String) : RAGIndexStats :=
  { totalComponents :=
      (store.documents.map (fun doc => doc.metadata.componentName)).dedup.length,
    totalDocuments := store.documents.length,
    indexSize := indexFileSize + docsFileSize,
    lastUpdated := now,
    packageStats :=
      store.documents.foldl (fun acc doc => bumpCount acc doc.metadata.packageName) [] }

/-- The `docMap` lookup inside `similaritySearch`: a JavaScript `Map`
built from `(id, doc)` pairs keeps the LAST binding of a repeated key,
hence the lookup over the reversed list. -/
def docMapGet (documents : List VectorDocument) (id : String) :
    Option VectorDocument :=
  documents.reverse.find? (fun doc => doc.id == id)

/-- Model of `FileVectorStore.similaritySearch`. The source computes
`cosineSimilarity` using floating-point `Math.sqrt`; the scoring
function is therefore a parameter `sim` of the model (every theorem
below holds for an arbitrary `sim`, in particular for true cosine
similarity), and everything else — filter by threshold, sort
descending, take `topK`, map ids back to documents — follows the
source. -/
def similaritySearch (sim : List ℚ → List ℚ → ℚ) (store : VectorStoreState)
    (queryEmbedding : List ℚ) (topK : Nat) (threshold : ℚ) :
    List VectorDocument :=
  if store.index.length = 0 then []
  else
    let similarities := store.index.map (fun item =>
      (item, sim queryEmbedding item.embedding))
    let filtered :=
      (((similarities.filter (fun p => decide (threshold ≤ p.2))).mergeSort
        (fun a b => decide (b.2 ≤ a.2))).take topK)
    filtered.filterMap (fun item => docMapGet store.documents item.1.id)

/- ### Component parser (`ComponentParser`) -/

/-- Uppercase the first character of a word (JS
`word.charAt(0).toUpperCase() + word.slice(1)`). -/
def capitalizeWord (w : String) : String :=
  match w.data with
  | [] => ""
  | c :: rest => ⟨Char.toUpper c :: rest⟩

/-- Model of `ComponentParser.capitalizeComponentName`: split on `-`,
capitalise each segment, join without separator. -/
def capitalizeComponentName (name : String) : String :=
  strJoin "" ((splitAtChar (Char.ofNat 45) name.data).map
    (fun w => capitalizeWord ⟨w⟩))

/-- The fall-back description `"<ComponentName> component"`. -/
def componentFallbackDescription (dirName : String) : String :=
  capitalizeComponentName dirName ++ " component"

/-- Model of `ComponentParser.extractDescription`. The file system is
modelled by passing the contents of `index.en-US.md` as an input;
`none` models any read failure (the `catch` branch). -/
def extractDescription (dirName : String) (file : Option String) : String :=
  match file with
  | none => componentFallbackDescription dirName
  | some content =>
    let lines := strSplitNl content
    match lines.findIdx? (fun line => strTrim line == "---") with
    | none => componentFallbackDescription dirName
    | some startIndex =>
      match lines.enum.find? (fun p =>
          decide (startIndex < p.1) && strStartsWith p.2 "## ") with
      | none => componentFallbackDescription dirName
      | some p =>
        let descriptionLines :=
          strTrim (strJoin " " (((lines.take p.1).drop (startIndex + 1)).filter
            (fun line => !(strStartsWith line "---") && strTrim line != "")))
        if descriptionLines == "" then componentFallbackDescription dirName
        else descriptionLines

/-- The static tag mapping of `ComponentParser.extractTags`, as a
lookup function over the lowercased directory name. -/
def tagMapping (name : String) : Option (List String) :=
  if name == "button" then some ["form", "action", "ui", "interactive"]
  else if name == "input" then some ["form", "data-entry", "ui"]
  else if name == "table" then some ["data-display", "list", "ui"]
  else if name == "form" then some ["data-entry", "validation", "ui"]
  else if name == "modal" then some ["feedback", "overlay", "ui"]
  else if name == "alert" then some ["feedback", "message", "ui"]
  else if name == "card" then some ["data-display", "container", "ui"]
  else if name == "menu" then some ["navigation", "ui"]
  else if name == "breadcrumb" then some ["navigation", "ui"]
  else if name == "pagination" then some ["navigation", "data-display", "ui"]
  else if name == "tabs" then some ["navigation", "ui"]
  else if name == "select" then some ["form", "data-entry", "ui"]
  else if name == "checkbox" then some ["form", "data-entry", "ui"]
  else if name == "radio" then some ["form", "data-entry", "ui"]
  else if name == "switch" then some ["form", "data-entry", "ui"]
  else if name == "slider" then some ["form", "data-entry", "ui"]
  else if name == "upload" then some ["form", "data-entry", "ui"]
  else if name == "progress" then some ["feedback", "ui"]
  else if name == "spin" then some ["feedback", "loading", "ui"]
  else if name == "avatar" then some ["data-display", "ui"]
  else if name == "badge" then some ["data-display", "ui"]
  else if name == "tag" then some ["data-display", "ui"]
  else if name == "tooltip" then some ["data-display", "overlay", "ui"]
  else if name == "popover" then some ["data-display", "overlay", "ui"]
  else if name == "dropdown" then some ["navigation", "overlay", "ui"]
  else none

/-- Model of `ComponentParser.extractTags`: look up the lowercased
directory name, default to `["ui"]`, then append the universal tags. -/
def extractTags (dirName : String) : List String :=
  let componentName := strLower dirName
  let baseTags := (tagMapping componentName).getD ["ui"]
  baseTags ++ ["react", "component"]

/- ### RAG service (`RAGService`) -/

/-- Model of `RAGService.calculateRelevanceScore`. Note that the base
score in the source is the constant `0.8`; the document's vector
similarity is not an input of this function at all. -/
def calculateRelevanceScore (doc : VectorDocument) (query : String) : ℚ :=
  let score : ℚ := 8 / 10
  let score :=
    if doc.metadata.type == "description" then score * (12 / 10)
    else if doc.metadata.type == "api" then score * 1
    else if doc.metadata.type == "example" then score * (8 / 10)
    else score
  let queryLower := strLower query
  let contentLower := strLower doc.content
  let score := if strIncludes contentLower queryLower then score * (13 / 10) else score
  min score 1

/-- Facet metadata `{...baseMetadata, type}` for one component. -/
def mkFacetMetadata (component : ComponentDoc) (type : String) : DocMetadata :=
  { componentName := component.componentName,
    packageName := component.packageName,
    type := type,
    tags := component.tags,
    version := component.version }

/-- The `texts` array collected by `createComponentVectors`: the
description if present, the api if present and informative, and each
non-blank example. (`contentList` in the source receives exactly the
same pushes.) -/
def componentTexts (component : ComponentDoc) : List String :=
  (if component.description != "" then [component.description] else [])
    ++ (if component.api != "" && component.api != "API documentation not available"
        then [component.api] else [])
    ++ component.examples.filter (fun ex => strTrim ex != "")

/-- The `metadataList` array collected by `createComponentVectors`,
push-parallel to `componentTexts`. -/
def componentMetadataList (component : ComponentDoc) : List DocMetadata :=
  (if component.description != "" then [mkFacetMetadata component "description"] else [])
    ++ (if component.api != "" && component.api != "API documentation not available"
        then [mkFacetMetadata component "api"] else [])
    ++ (component.examples.filter (fun ex => strTrim ex != "")).map
        (fun _ => mkFacetMetadata component "example")

/-- Out-of-range default for `metadataList[index]` (never reached for
indices produced by the embedder). -/
def defaultFacetMetadata : DocMetadata :=
  { componentName := "", packageName := "", type := "", tags := [], version := "" }

/-- Model of `RAGService.createComponentVectors`: collect the facet
texts, embed them in one batch, and zip the returned vectors with the
metadata / content lists by index. -/
def createComponentVectors (f : String → List ℚ) (component : ComponentDoc) :
    Except String (List VectorDocument) :=
  let texts := componentTexts component
  let metadataList := componentMetadataList component
  let contentList := componentTexts component
  if texts.length = 0 then .ok []
  else
    match embedTexts f texts with
    | .error e =>
      .error ("Failed to create vectors for " ++ component.componentName ++ ": " ++ e)
    | .ok embeddings =>
      .ok (mapWithIndex (fun index embedding =>
        let md := metadataList.getD index defaultFacetMetadata
        { id := generateDocumentId component.componentName
            (if md.type == "example" then "example-" ++ toString index else md.type)
            (contentList.getD index ""),
          content := contentList.getD index "",
          embedding := embedding,
          metadata := md }) embeddings)

/-- The successful vector list of `createComponentVectors` (empty when
the call failed): statement-side plumbing for the theorems below. -/
def vectorsOf (f : String → List ℚ) (component : ComponentDoc) :
    List VectorDocument :=
  (createComponentVectors f component).toOption.getD []

/-- Per-component outcome inside one sync batch. -/
structure SyncBatchResult where
  success : Bool
  vectors : List VectorDocument
  error : Option String

/-- Model of the per-component closure inside `syncComponents`: parse
successes are vectorised, parse failures and vectorisation failures
yield error strings. -/
def processComponent (f : String → List ℚ) (parsedComp : ParsedComponent) :
    SyncBatchResult :=
  if parsedComp.status == "success" then
    match createComponentVectors f parsedComp.info with
    | .ok vectors => ⟨true, vectors, none⟩
    | .error e => ⟨false, [], some (parsedComp.info.componentName ++ ": " ++ e)⟩
  else
    ⟨false, [], some (parsedComp.info.componentName ++ ": "
      ++ (parsedComp.error.getD "Parse failed"))⟩

/-- Accumulate one per-component result: a success bumps the counter
and contributes its vectors, a failure appends its error message. -/
def syncResultStep (acc : Nat × List String × List VectorDocument)
    (r : SyncBatchResult) : Nat × List String × List VectorDocument :=
  if r.success then (acc.1 + 1, acc.2.1, acc.2.2 ++ r.vectors)
  else match r.error with
    | some e => (acc.1, acc.2.1 ++ [e], acc.2.2)
    | none => acc

/-- Collect one batch's results: successes bump the counter and
contribute their vectors, failures append their error message. -/
def batchOutcome (results : List SyncBatchResult) :
    Nat × List String × List VectorDocument :=
  results.foldl syncResultStep (0, [], [])

/-- The `packages` filter of `syncComponents`. A present-but-empty
`packages` array is truthy in JavaScript and therefore filters
everything out, exactly as in the source. -/
def filterComponentsToSync (parsed : List ParsedComponent)
    (packages : Option (List String)) : List ParsedComponent :=
  match packages with
  | some pkgs => parsed.filter (fun comp => pkgs.contains comp.info.packageName)
  | none => parsed

/-- One batch step of `syncComponents`: process every component of the
batch, accumulate counters and errors, and store the batch's vectors
with one `addDocuments` call when any were produced. -/
def syncBatchStep (f : String → List ℚ)
    (acc : Nat × List String × VectorStoreState)
    (batch : List ParsedComponent) : Nat × List String × VectorStoreState :=
  let outcome := batchOutcome (batch.map (processComponent f))
  let store :=
    if 0 < outcome.2.2.length then addDocuments acc.2.2 outcome.2.2 else acc.2.2
  (acc.1 + outcome.1, acc.2.1 ++ outcome.2.1, store)

/-- Model of `RAGService.syncComponents`. The parser's output is an
input (the parser reads the file system); `duration` models the wall
clock. The smart cache clearing at the end does not affect the store or
the response and is modelled separately by the cache's `clear`
operation. -/
def syncComponents (f : String → List ℚ) (store : VectorStoreState)
    (parsedComponents : List ParsedComponent) (request : ComponentSyncRequest)
    (duration : Nat) : ComponentSyncResponse × VectorStoreState :=
  let processedCount := parsedComponents.length
  let componentsToSync := filterComponentsToSync parsedComponents request.packages
  let store0 := if request.forceReindex then ⟨[], []⟩ else store
  let batches := chunks 10 componentsToSync
  let result := batches.foldl (syncBatchStep f) (0, [], store0)
  let successCount := result.1
  let errors := result.2.1
  ({ status :=
       if errors.length = 0 then "success"
       else if 0 < successCount then "partial" else "failed",
     processedCount := processedCount,
     successCount := successCount,
     failedCount := processedCount - successCount,
     errors := errors,
     duration := duration }, result.2.2)

/- ### Smart cache (`SmartCache`)

JavaScript `Map`s are modelled as insertion-ordered association lists
with unique keys: `get` searches, `set` overwrites in place or appends,
`delete` removes. The wall clock (`Date.now()`) and the elapsed
response time are explicit inputs. The source mutates a shared entry
object from both maps when bumping its per-entry `hits` field; that
aliasing is irrelevant to the cumulative counters studied here and is
not modelled. The semantic similarity is a parameter `sim`, for the
same floating-point reason as in `similaritySearch`. -/

/-- One cached entry (`CacheEntry` in the source), with an opaque
response type `α`. -/
structure CacheEntry (α : Type) where
  value : α
  timestamp : Nat
  hits : Nat
  embedding : Option (List ℚ)

/-- State of one `SmartCache` instance, including the cumulative
statistics counters. -/
structure SmartCacheState (α : Type) where
  cache : List (String × CacheEntry α)
  semanticCache : List (String × CacheEntry α)
  maxSize : Nat
  maxAge : Nat
  similarityThreshold : ℚ
  hits : Nat
  misses : Nat
  totalResponseTime : Nat
  queries : Nat

/-- The state built by the `SmartCache` constructor. -/
def initSmartCache (α : Type) (maxSize maxAge : Nat) (τ : ℚ) :
    SmartCacheState α :=
  ⟨[], [], maxSize, maxAge, τ, 0, 0, 0, 0⟩

/-- `Map.prototype.get`. -/
def mapGet (m : List (String × CacheEntry α)) (key : String) :
    Option (CacheEntry α) :=
  (m.find? (fun p => p.1 == key)).map (fun p => p.2)

/-- `Map.prototype.delete`. -/
def mapDelete (m : List (String × CacheEntry α)) (key : String) :
    List (String × CacheEntry α) :=
  m.filter (fun p => p.1 != key)

/-- `Map.prototype.set`: overwrite in place when the key exists,
append otherwise. -/
def mapSet (m : List (String × CacheEntry α)) (key : String)
    (v : CacheEntry α) : List (String × CacheEntry α) :=
  if (m.find? (fun p => p.1 == key)).isSome then
    m.map (fun p => if p.1 == key then (key, v) else p)
  else m ++ [(key, v)]

/-- Model of `SmartCache.generateKey`: md5 of the lowercased trimmed
query followed by the serialised filters (the filters argument is
modelled as its JSON serialisation; `none` models absent filters). -/
def generateKey (query : String) (filters : Option String) : String :=
  md5hex (strTrim (strLower query) ++ filters.getD "")

/-- The semantic-tier scan of `SmartCache.get`: walk the semantic map
in insertion order; the first non-expired entry whose stored embedding
is similar enough is a hit (its per-entry counter is bumped). Returns
the hit value (if any) and the updated semantic map. -/
def semanticScan (sim : List ℚ → List ℚ → ℚ) (now maxAge : Nat) (τ : ℚ)
    (emb : List ℚ) : List (String × CacheEntry α) →
    Option α × List (String × CacheEntry α)
  | [] => (none, [])
  | (k, entry) :: rest =>
    match entry.embedding with
    | some e =>
      if now - entry.timestamp ≤ maxAge then
        if τ ≤ sim emb e then
          (some entry.value, (k, { entry with hits := entry.hits + 1 }) :: rest)
        else
          let r := semanticScan sim now maxAge τ emb rest
          (r.1, (k, entry) :: r.2)
      else
        let r := semanticScan sim now maxAge τ emb rest
        (r.1, (k, entry) :: r.2)
    | none =>
      let r := semanticScan sim now maxAge τ emb rest
      (r.1, (k, entry) :: r.2)

/-- The tail of `SmartCache.get` after the exact tier: try the semantic
tier when a query embedding was supplied, otherwise record a miss. -/
def cacheGetSemantic (sim : List ℚ → List ℚ → ℚ) (now elapsed : Nat)
    (embedding : Option (List ℚ)) (s : SmartCacheState α) :
    Option α × SmartCacheState α :=
  match embedding with
  | some emb =>
    if 0 < emb.length then
      let r := semanticScan sim now s.maxAge s.similarityThreshold emb s.semanticCache
      match r.1 with
      | some value =>
        (some value,
         { s with hits := s.hits + 1,
                  totalResponseTime := s.totalResponseTime + elapsed,
                  semanticCache := r.2 })
      | none =>
        (none, { s with misses := s.misses + 1,
                        totalResponseTime := s.totalResponseTime + elapsed })
    else
      (none, { s with misses := s.misses + 1,
                      totalResponseTime := s.totalResponseTime + elapsed })
  | none =>
    (none, { s with misses := s.misses + 1,
                    totalResponseTime := s.totalResponseTime + elapsed })

/-- Model of `SmartCache.get`: bump the query counter, try the exact
tier (deleting an expired hit), then fall through to the semantic
tier. An exact hit is re-inserted at the tail (LRU refresh). -/
def cacheGet (sim : List ℚ → List ℚ → ℚ) (now elapsed : Nat) (query : String)
    (embedding : Option (List ℚ)) (filters : Option String)
    (s : SmartCacheState α) : Option α × SmartCacheState α :=
  let s1 := { s with queries := s.queries + 1 }
  let key := generateKey query filters
  match mapGet s1.cache key with
  | some exactMatch =>
    if now - exactMatch.timestamp ≤ s1.maxAge then
      let entry := { exactMatch with hits := exactMatch.hits + 1 }
      (some entry.value,
       { s1 with hits := s1.hits + 1,
                 totalResponseTime := s1.totalResponseTime + elapsed,
                 cache := mapSet (mapDelete s1.cache key) key entry })
    else
      cacheGetSemantic sim now elapsed embedding
        { s1 with cache := mapDelete s1.cache key }
  | none => cacheGetSemantic sim now elapsed embedding s1

/-- Model of `SmartCache.set`: LRU-evict the oldest-inserted key when
full, then insert into the exact map and (when an embedding with
positive length was supplied) into the semantic map. -/
def cacheSet (now : Nat) (query : String) (value : α)
    (embedding : Option (List ℚ)) (filters : Option String)
    (s : SmartCacheState α) : SmartCacheState α :=
  let key := generateKey query filters
  let s1 :=
    if s.maxSize ≤ s.cache.length then
      match s.cache.head? with
      | some firstEntry =>
        let s2 := { s with cache := mapDelete s.cache firstEntry.1 }
        if (mapGet s2.semanticCache firstEntry.1).isSome then
          { s2 with semanticCache := mapDelete s2.semanticCache firstEntry.1 }
        else s2
      | none => s
    else s
  let entry : CacheEntry α := ⟨value, now, 0, embedding⟩
  let s3 := { s1 with cache := mapSet s1.cache key entry }
  match embedding with
  | some e =>
    if 0 < e.length then { s3 with semanticCache := mapSet s3.semanticCache key entry }
    else s3
  | none => s3

/-- Model of `SmartCache.clear`: both maps are emptied, the cumulative
statistics counters persist. -/
def cacheClear (s : SmartCacheState α) : SmartCacheState α :=
  { s with cache := [], semanticCache := [] }

/-- Cache statistics (`CacheStats`). -/
structure CacheStats where
  size : Nat
  hits : Nat
  misses : Nat
  hitRate : ℚ
  avgResponseTime : ℚ
  oldestEntry : Nat
  totalQueries : Nat

/-- Model of `SmartCache.getStats`. -/
def cacheGetStats (now : Nat) (s : SmartCacheState α) : CacheStats :=
  let entries := s.cache.map (fun p => p.2)
  let oldestTimestamp :=
    match entries with
    | [] => now
    | e :: rest => (rest.map (fun x => x.timestamp)).foldl Nat.min e.timestamp
  { size := s.cache.length,
    hits := s.hits,
    misses := s.misses,
    hitRate := if 0 < s.queries then (s.hits : ℚ) / (s.queries : ℚ) else 0,
    avgResponseTime :=
      if 0 < s.queries then (s.totalResponseTime : ℚ) / (s.queries : ℚ) else 0,
    oldestEntry := oldestTimestamp,
    totalQueries := s.queries }

/-- One externally visible cache operation, for reasoning about
arbitrary operation sequences. -/
inductive CacheOp (α : Type) where
  | get (now elapsed : Nat) (query : String) (embedding : Option (List ℚ))
      (filters : Option String)
  | set (now : Nat) (query : String) (value : α) (embedding : Option (List ℚ))
      (filters : Option String)
  | clear

/-- Apply one cache operation to the state. -/
def runCacheOp (sim : List ℚ → List ℚ → ℚ) (s : SmartCacheState α) :
    CacheOp α → SmartCacheState α
  | .get now elapsed query embedding filters =>
    (cacheGet sim now elapsed query embedding filters s).2
  | .set now query value embedding filters =>
    cacheSet now query value embedding filters s
  | .clear => cacheClear s

/-- Run a sequence of cache operations from a given state. -/
def runCacheOps (sim : List ℚ → List ℚ → ℚ) (s : SmartCacheState α)
    (ops : List (CacheOp α)) : SmartCacheState α :=
  ops.foldl (runCacheOp sim) s

/- ### C1 — relevance scores in Search -/

/-- A stored description-facet hit, used to evaluate the source's
scoring function at a concrete input. -/
def c1doc : VectorDocument :=
  { id := "Button-description-00000000",
    content := "Button docs",
    embedding := [1, 0],
    metadata := { componentName := "Button",
                  packageName := "@private/basic-components",
                  type := "description", tags := ["ui"], version := "1.0.0" } }

/-- The same hit with a different stored embedding (hence a different
vector similarity to any fixed query vector). -/
def c1docVariant : VectorDocument :=
  { c1doc with embedding := [0, 1] }

/-- C1. The per-hit relevance score does not use the hit's vector
similarity: the source starts from the constant base `0.8` (its own
comment says the true similarity should be used), so a
description-facet hit without a keyword match always scores
`0.8 × 1.2 = 24/25`, whatever its embedding. The claim's
`similarity × 1.2` would give different scores to these two documents
for a suitable query vector; the code gives both `24/25`. -/
theorem calculateRelevanceScore_constant_base :
    calculateRelevanceScore c1doc "zzz" = 24 / 25 ∧
    calculateRelevanceScore c1docVariant "zzz" = 24 / 25 := by
  have h1 : calculateRelevanceScore c1doc "zzz" = min ((8 : ℚ) / 10 * (12 / 10)) 1 := rfl
  have h2 : calculateRelevanceScore c1docVariant "zzz"
      = min ((8 : ℚ) / 10 * (12 / 10)) 1 := rfl
  rw [h1, h2, min_def]
  norm_num

/- ### C2 — the batch embedder and input order -/

/-- A concrete per-text embedding function for the examples below. -/
def constEmbed : String → List ℚ := fun _ => [1]

/-- C2 counterexample. On the non-empty input `["a", " "]` the batch
embed operation filters out the purely whitespace text and returns one
vector, not two: the returned list does not have the same length as the
input list. -/
theorem embedTexts_whitespace_counterexample :
    embedTexts constEmbed ["a", " "] = Except.ok [[1]] ∧
    ¬ (([[1]] : List (List ℚ)).length = (["a", " "] : List String).length) :=
  ⟨rfl, by decide⟩

/-- C2 (amended). For every non-empty list of texts none of which is
purely whitespace, the batch embed operation succeeds with exactly one
vector per text, in input order (`f` applied position-wise). -/
theorem embedTexts_preserves_order (f : String → List ℚ) (texts : List String)
    (hne : texts ≠ []) (hws : ∀ t ∈ texts, strTrim t ≠ "") :
    embedTexts f texts = Except.ok (texts.map f) ∧
    (texts.map f).length = texts.length := by
  have hlen : ¬ texts.length = 0 := by
    simpa [List.length_eq_zero] using hne
  have hfilter : texts.filter (fun text => strTrim text != "") = texts := by
    refine List.filter_eq_self.mpr ?_
    intro a ha
    exact bne_iff_ne.mpr (hws a ha)
  refine ⟨?_, List.length_map texts f⟩
  unfold embedTexts
  rw [if_neg hlen]
  simp only [hfilter]
  rw [if_neg hlen]

/-- Witness for C2 (amended) at the concrete input `["hello", "world"]`. -/
theorem embedTexts_preserves_order_witness :
    ((["hello", "world"] : List String) ≠ [] ∧
      ∀ t ∈ (["hello", "world"] : List String), strTrim t ≠ "") ∧
    embedTexts constEmbed ["hello", "world"]
      = Except.ok ((["hello", "world"] : List String).map constEmbed) ∧
    ((["hello", "world"] : List String).map constEmbed).length
      = (["hello", "world"] : List String).length :=
  ⟨⟨by decide, by decide⟩,
   embedTexts_preserves_order constEmbed ["hello", "world"] (by decide) (by decide)⟩

/- ### C3 — retry behaviour on quota / authentication errors -/

/-- A provider that fails every attempt with a quota message. -/
def c3call : Nat → Except String (List (List ℚ)) :=
  fun _ => Except.error "insufficient quota for request"

/-- C3 counterexample. With the provider failing with a quota message
from the very first attempt and `maxRetries = 3`, the source still
performs all three provider calls — the quota check only selects the
error message surfaced after retries are exhausted, it does not
suppress the retries. -/
theorem createEmbedding_quota_retries_counterexample :
    (createEmbedding c3call 3).2 = 3 ∧
    ¬ ((createEmbedding c3call 3).2 = 1) ∧
    (createEmbedding c3call 3).1 =
      Except.error "OpenAI API quota exceeded. Please check your billing." :=
  ⟨rfl, by decide, rfl⟩

theorem createEmbeddingGo_all_fail (call : Nat → Except String (List (List ℚ)))
    (m : Nat → String) (hcall : ∀ i, call i = Except.error (m i))
    (maxRetries : Nat) :
    ∀ remaining attempt, attempt + remaining = maxRetries + 1 →
      1 ≤ remaining → 1 ≤ attempt →
      createEmbeddingGo call maxRetries remaining attempt =
        (Except.error (classifyEmbeddingError maxRetries (m maxRetries)), maxRetries) := by
  intro remaining
  induction remaining with
  | zero => intro attempt _ h1 _; omega
  | succ r ih =>
    intro attempt hsum _ h2
    unfold createEmbeddingGo
    rw [hcall attempt]
    dsimp only
    by_cases hc : attempt < maxRetries
    · rw [if_pos hc]
      exact ih (attempt + 1) (by omega) (by omega) (by omega)
    · rw [if_neg hc]
      have ha : attempt = maxRetries := by omega
      rw [ha]

/-- C3 (amended). The retry loop treats quota and 401 errors exactly
like any other error: when every attempt fails, all `maxRetries`
provider calls are performed, and only the error of the final attempt
is classified (quota first, then 401, then the generic wrap) to choose
the surfaced message. -/
theorem createEmbedding_classifies_after_retries
    (call : Nat → Except String (List (List ℚ))) (m : Nat → String)
    (maxRetries : Nat) (h1 : 1 ≤ maxRetries)
    (hcall : ∀ i, call i = Except.error (m i)) :
    createEmbedding call maxRetries =
      (Except.error (classifyEmbeddingError maxRetries (m maxRetries)), maxRetries) :=
  createEmbeddingGo_all_fail call m hcall maxRetries maxRetries 1 (by omega) h1 (by omega)

/-- Witness for C3 (amended) with a constantly failing provider and
`maxRetries = 2`. -/
theorem createEmbedding_classifies_after_retries_witness :
    (1 ≤ 2 ∧ ∀ i : Nat,
      (fun _ : Nat => (Except.error "boom" : Except String (List (List ℚ)))) i
        = Except.error ((fun _ : Nat => "boom") i)) ∧
    createEmbedding (fun _ => Except.error "boom") 2 =
      (Except.error (classifyEmbeddingError 2 ((fun _ : Nat => "boom") 2)), 2) :=
  ⟨⟨by decide, fun _ => rfl⟩,
   createEmbedding_classifies_after_retries (fun _ => Except.error "boom")
     (fun _ => "boom") 2 (by decide) (fun _ => rfl)⟩

/- ### C7 — the parser's tag extraction -/

/-- C7 counterexample. The static mapping gives `card` the extra tags
`data-display, container, ui` (not just `data-display, ui`) and
`dropdown` the extra tags `navigation, overlay, ui` (not just
`navigation, ui`): the tag `container` appears for `card` and the tag
`overlay` appears for `dropdown`, neither of which the claim allows. -/
theorem extractTags_counterexample :
    "container" ∈ extractTags "card" ∧
    "container" ∉ (["data-display", "ui", "react", "component"] : List String) ∧
    "overlay" ∈ extractTags "dropdown" ∧
    "overlay" ∉ (["navigation", "ui", "react", "component"] : List String) := by
  decide

/-- C7 (amended). The extracted tags are the static mapping's entry for
the lowercased directory name with `react, component` appended,
defaulting to `ui, react, component`; concretely `card` yields the
extra tags `data-display, container, ui`, `dropdown` yields
`navigation, overlay, ui`, while `avatar`, `badge`, `tag` yield
`data-display, ui` and `menu`, `breadcrumb`, `tabs` yield
`navigation, ui`. -/
theorem extractTags_mapping :
    extractTags "card" = ["data-display", "container", "ui", "react", "component"] ∧
    extractTags "avatar" = ["data-display", "ui", "react", "component"] ∧
    extractTags "badge" = ["data-display", "ui", "react", "component"] ∧
    extractTags "tag" = ["data-display", "ui", "react", "component"] ∧
    extractTags "menu" = ["navigation", "ui", "react", "component"] ∧
    extractTags "breadcrumb" = ["navigation", "ui", "react", "component"] ∧
    extractTags "tabs" = ["navigation", "ui", "react", "component"] ∧
    extractTags "dropdown" = ["navigation", "overlay", "ui", "react", "component"] ∧
    ∀ dirName, tagMapping (strLower dirName) = none →
      extractTags dirName = ["ui", "react", "component"] := by
  refine ⟨by decide, by decide, by decide, by decide, by decide, by decide,
    by decide, by decide, ?_⟩
  intro dirName h
  unfold extractTags
  simp only [h, Option.getD_none]
  rfl

/-- Witness for the defaulting part of C7 (amended) at the unmapped
directory name `carousel`. -/
theorem extractTags_mapping_witness :
    tagMapping (strLower "carousel") = none ∧
    extractTags "carousel" = ["ui", "react", "component"] :=
  ⟨by decide, extractTags_mapping.2.2.2.2.2.2.2.2 "carousel" (by decide)⟩

/- ### C9 — cache counters -/

theorem cacheGetSemantic_queries (sim : List ℚ → List ℚ → ℚ) (now elapsed : Nat)
    (embedding : Option (List ℚ)) (s : SmartCacheState α) :
    (cacheGetSemantic sim now elapsed embedding s).2.queries = s.queries := by
  rcases embedding with _ | emb
  · rfl
  · unfold cacheGetSemantic
    dsimp only
    split
    · split
      · rfl
      · rfl
    · rfl

theorem cacheGetSemantic_hm (sim : List ℚ → List ℚ → ℚ) (now elapsed : Nat)
    (embedding : Option (List ℚ)) (s : SmartCacheState α) :
    (cacheGetSemantic sim now elapsed embedding s).2.hits
      + (cacheGetSemantic sim now elapsed embedding s).2.misses
      = s.hits + s.misses + 1 := by
  rcases embedding with _ | emb
  · show s.hits + (s.misses + 1) = s.hits + s.misses + 1
    omega
  · unfold cacheGetSemantic
    dsimp only
    split
    · split
      · dsimp only; omega
      · dsimp only; omega
    · dsimp only; omega

theorem cacheGet_counts (sim : List ℚ → List ℚ → ℚ) (now elapsed : Nat)
    (query : String) (embedding : Option (List ℚ)) (filters : Option String)
    (s : SmartCacheState α) :
    (cacheGet sim now elapsed query embedding filters s).2.queries = s.queries + 1 ∧
    (cacheGet sim now elapsed query embedding filters s).2.hits
      + (cacheGet sim now elapsed query embedding filters s).2.misses
      = s.hits + s.misses + 1 := by
  unfold cacheGet
  dsimp only
  split
  · split
    · exact ⟨rfl, by dsimp only; omega⟩
    · constructor
      · rw [cacheGetSemantic_queries]
      · rw [cacheGetSemantic_hm]
  · constructor
    · rw [cacheGetSemantic_queries]
    · rw [cacheGetSemantic_hm]

theorem cacheSet_stats (now : Nat) (query : String) (value : α)
    (embedding : Option (List ℚ)) (filters : Option String)
    (s : SmartCacheState α) :
    (cacheSet now query value embedding filters s).queries = s.queries ∧
    (cacheSet now query value embedding filters s).hits = s.hits ∧
    (cacheSet now query value embedding filters s).misses = s.misses := by
  unfold cacheSet
  dsimp only
  refine ⟨?_, ?_, ?_⟩ <;>
    (split <;> (try split) <;> (try split) <;> (try split) <;> (try split) <;>
      simp [apply_ite])

theorem runCacheOp_invariant (sim : List ℚ → List ℚ → ℚ)
    (s : SmartCacheState α) (op : CacheOp α)
    (h : s.queries = s.hits + s.misses) :
    (runCacheOp sim s op).queries = (runCacheOp sim s op).hits + (runCacheOp sim s op).misses := by
  rcases op with ⟨now, elapsed, query, embedding, filters⟩ | ⟨now, query, value, embedding, filters⟩ | _
  · have hc := cacheGet_counts sim now elapsed query embedding filters s
    simp only [runCacheOp]
    omega
  · have hc := cacheSet_stats now query value embedding filters s
    simp only [runCacheOp]
    omega
  · exact h

theorem runCacheOps_invariant (sim : List ℚ → List ℚ → ℚ)
    (ops : List (CacheOp α)) :
    ∀ s : SmartCacheState α, s.queries = s.hits + s.misses →
      (runCacheOps sim s ops).queries
        = (runCacheOps sim s ops).hits + (runCacheOps sim s ops).misses := by
  induction ops with
  | nil => intro s h; exact h
  | cons op rest ih =>
    intro s h
    exact ih (runCacheOp sim s op) (runCacheOp_invariant sim s op h)

/-- The cache state after running a sequence of operations on a freshly
constructed cache. -/
def cacheStateAfter (α : Type) (sim : List ℚ → List ℚ → ℚ)
    (maxSize maxAge : Nat) (τ : ℚ) (ops : List (CacheOp α)) :
    SmartCacheState α :=
  runCacheOps sim (initSmartCache α maxSize maxAge τ) ops

/-- C9. After any sequence of cache operations, the cumulative counters
satisfy `totalQueries = hits + misses` (every `get` increments exactly
one of `hits` or `misses`), and whenever at least one query was made
the reported `hitRate` equals `hits / (hits + misses)`. -/
theorem smartCache_counters (α : Type) (sim : List ℚ → List ℚ → ℚ)
    (maxSize maxAge : Nat) (τ : ℚ) (ops : List (CacheOp α)) (now : Nat) :
    (cacheStateAfter α sim maxSize maxAge τ ops).queries
      = (cacheStateAfter α sim maxSize maxAge τ ops).hits
        + (cacheStateAfter α sim maxSize maxAge τ ops).misses ∧
    (0 < (cacheStateAfter α sim maxSize maxAge τ ops).queries →
      (cacheGetStats now (cacheStateAfter α sim maxSize maxAge τ ops)).hitRate
        = ((cacheStateAfter α sim maxSize maxAge τ ops).hits : ℚ)
          / (((cacheStateAfter α sim maxSize maxAge τ ops).hits : ℚ)
             + ((cacheStateAfter α sim maxSize maxAge τ ops).misses : ℚ))) := by
  have hinv : (cacheStateAfter α sim maxSize maxAge τ ops).queries
      = (cacheStateAfter α sim maxSize maxAge τ ops).hits
        + (cacheStateAfter α sim maxSize maxAge τ ops).misses :=
    runCacheOps_invariant sim ops (initSmartCache α maxSize maxAge τ) rfl
  refine ⟨hinv, ?_⟩
  intro hq
  unfold cacheGetStats
  dsimp only
  rw [if_pos hq, hinv]
  push_cast
  ring

/-- Witness for C9: one `get` on a fresh cache records one query and
one miss. -/
theorem smartCache_counters_witness :
    0 < (cacheStateAfter Nat (fun _ _ => 0) 1000 300000 (92 / 100)
        [CacheOp.get 0 0 "q" none none]).queries ∧
    (cacheStateAfter Nat (fun _ _ => 0) 1000 300000 (92 / 100)
        [CacheOp.get 0 0 "q" none none]).queries
      = (cacheStateAfter Nat (fun _ _ => 0) 1000 300000 (92 / 100)
          [CacheOp.get 0 0 "q" none none]).hits
        + (cacheStateAfter Nat (fun _ _ => 0) 1000 300000 (92 / 100)
            [CacheOp.get 0 0 "q" none none]).misses ∧
    (cacheGetStats 0 (cacheStateAfter Nat (fun _ _ => 0) 1000 300000 (92 / 100)
        [CacheOp.get 0 0 "q" none none])).hitRate
      = ((cacheStateAfter Nat (fun _ _ => 0) 1000 300000 (92 / 100)
          [CacheOp.get 0 0 "q" none none]).hits : ℚ)
        / (((cacheStateAfter Nat (fun _ _ => 0) 1000 300000 (92 / 100)
            [CacheOp.get 0 0 "q" none none]).hits : ℚ)
           + ((cacheStateAfter Nat (fun _ _ => 0) 1000 300000 (92 / 100)
              [CacheOp.get 0 0 "q" none none]).misses : ℚ)) :=
  ⟨by decide,
   (smartCache_counters Nat (fun _ _ => 0) 1000 300000 (92 / 100)
     [CacheOp.get 0 0 "q" none none] 0).1,
   (smartCache_counters Nat (fun _ _ => 0) 1000 300000 (92 / 100)
     [CacheOp.get 0 0 "q" none none] 0).2 (by decide)⟩

/- ### C4 — sync counters and the errors list -/

theorem syncResultStep_count (acc : Nat × List String × List VectorDocument)
    (r : SyncBatchResult) (hr : r.success = true ∨ ∃ e, r.error = some e) :
    (syncResultStep acc r).1 + (syncResultStep acc r).2.1.length
      = acc.1 + acc.2.1.length + 1 := by
  unfold syncResultStep
  by_cases hs : r.success = true
  · rw [if_pos hs]
    dsimp only
    omega
  · rw [if_neg hs]
    rcases hr with h | ⟨e, he⟩
    · exact absurd h hs
    · rw [he]
      dsimp only
      simp only [List.length_append, List.length_singleton]
      omega

theorem foldl_syncResultStep_count (results : List SyncBatchResult)
    (h : ∀ r ∈ results, r.success = true ∨ ∃ e, r.error = some e) :
    ∀ acc : Nat × List String × List VectorDocument,
      (results.foldl syncResultStep acc).1
          + (results.foldl syncResultStep acc).2.1.length
        = acc.1 + acc.2.1.length + results.length := by
  induction results with
  | nil => intro acc; rfl
  | cons r rest ih =>
    intro acc
    have hr := h r (List.mem_cons_self r rest)
    have hrest : ∀ x ∈ rest, x.success = true ∨ ∃ e, x.error = some e :=
      fun x hx => h x (List.mem_cons_of_mem r hx)
    rw [List.foldl_cons, ih hrest (syncResultStep acc r),
      syncResultStep_count acc r hr, List.length_cons]
    omega

theorem processComponent_ok (f : String → List ℚ) (pc : ParsedComponent) :
    (processComponent f pc).success = true ∨
      ∃ e, (processComponent f pc).error = some e := by
  unfold processComponent
  by_cases hs : (pc.status == "success") = true
  · rw [if_pos hs]
    rcases hcv : createComponentVectors f pc.info with e | v
    · exact Or.inr ⟨_, rfl⟩
    · exact Or.inl rfl
  · rw [if_neg hs]
    exact Or.inr ⟨_, rfl⟩

theorem batchOutcome_count (f : String → List ℚ)
    (batch : List ParsedComponent) :
    (batchOutcome (batch.map (processComponent f))).1
        + (batchOutcome (batch.map (processComponent f))).2.1.length
      = batch.length := by
  unfold batchOutcome
  have h : ∀ r ∈ batch.map (processComponent f),
      r.success = true ∨ ∃ e, r.error = some e := by
    intro r hr
    rcases List.mem_map.mp hr with ⟨pc, _, hpc⟩
    rw [← hpc]
    exact processComponent_ok f pc
  rw [foldl_syncResultStep_count (batch.map (processComponent f)) h (0, [], []),
    List.length_map]
  dsimp only
  simp only [List.length_nil]
  omega

theorem chunksGo_flatten (n : Nat) (hn : 0 < n) :
    ∀ (fuel : Nat) (l : List α), l.length ≤ fuel → (chunksGo n fuel l).flatten = l := by
  intro fuel
  induction fuel with
  | zero =>
    intro l hl
    have : l = [] := List.length_eq_zero.mp (Nat.le_zero.mp hl)
    rw [this]
    rfl
  | succ fuel ih =>
    intro l hl
    cases l with
    | nil => rfl
    | cons a rest =>
      show ((a :: rest).take n) ++ (chunksGo n fuel ((a :: rest).drop n)).flatten
        = a :: rest
      rw [ih ((a :: rest).drop n)
          (by simp only [List.length_drop, List.length_cons]
              simp only [List.length_cons] at hl
              omega),
        List.take_append_drop]

/-- Concatenating the chunks gives back the original list. -/
theorem chunks_flatten (n : Nat) (hn : 0 < n) (l : List α) :
    (chunks n l).flatten = l :=
  chunksGo_flatten n hn l.length l (Nat.le_refl _)

theorem foldl_syncBatchStep_count (f : String → List ℚ)
    (batches : List (List ParsedComponent)) :
    ∀ acc : Nat × List String × VectorStoreState,
      (batches.foldl (syncBatchStep f) acc).1
          + (batches.foldl (syncBatchStep f) acc).2.1.length
        = acc.1 + acc.2.1.length + (batches.map List.length).sum := by
  induction batches with
  | nil => intro acc; simp
  | cons batch rest ih =>
    intro acc
    rw [List.foldl_cons, ih (syncBatchStep f acc batch)]
    show ((syncBatchStep f acc batch).1 + (syncBatchStep f acc batch).2.1.length)
        + (rest.map List.length).sum = _
    unfold syncBatchStep
    dsimp only
    have hb := batchOutcome_count f batch
    rw [List.length_append, List.map_cons, List.sum_cons]
    omega

theorem sync_success_errors_count (f : String → List ℚ)
    (store : VectorStoreState) (parsed : List ParsedComponent)
    (request : ComponentSyncRequest) (duration : Nat) :
    (syncComponents f store parsed request duration).1.successCount
        + (syncComponents f store parsed request duration).1.errors.length
      = (filterComponentsToSync parsed request.packages).length := by
  unfold syncComponents
  dsimp only
  have h := foldl_syncBatchStep_count f
    (chunks 10 (filterComponentsToSync parsed request.packages))
    (0, [], if request.forceReindex then ⟨[], []⟩ else store)
  dsimp only at h
  simp only [List.length_nil] at h
  have hsum : ((chunks 10 (filterComponentsToSync parsed request.packages)).map
        List.length).sum
      = (filterComponentsToSync parsed request.packages).length := by
    rw [← List.length_flatten, chunks_flatten 10 (by omega)]
  omega

theorem filterComponentsToSync_length_le (parsed : List ParsedComponent)
    (packages : Option (List String)) :
    (filterComponentsToSync parsed packages).length ≤ parsed.length := by
  unfold filterComponentsToSync
  cases packages with
  | none => exact Nat.le_refl _
  | some pkgs => exact List.length_filter_le _ parsed

/-- C4 counterexample. Two successfully parsed components live in
packages `p` and `q`; the sync request filters to package `p` only.
The component in `p` syncs successfully, so `processedCount = 2`,
`successCount = 1`, `failedCount = 1` — but `errors` is empty: the
filtered-out component counts as failed without any error entry, so
`len(errors) = 0 ≠ 1 = failedCount`. -/
def c4comp (pkg name : String) : ParsedComponent :=
  { info := { packageName := pkg, componentName := name, description := "D",
              api := "", examples := [], tags := ["ui"], version := "1.0.0",
              dependencies := [], updatedAt := "" },
    filePath := "", status := "success", error := none }

/-- The sync response of the C4 counterexample run. -/
def c4resp : ComponentSyncResponse :=
  (syncComponents constEmbed ⟨[], []⟩ [c4comp "p" "A", c4comp "q" "B"]
    { packages := some ["p"], forceReindex := false } 0).1

/-- C4 counterexample (see `c4comp`): `processedCount` counts all
parsed components while `errors` only records failures among the
filtered-in ones. -/
theorem syncComponents_filter_counterexample :
    c4resp.processedCount = 2 ∧ c4resp.successCount = 1 ∧
    c4resp.failedCount = 1 ∧ c4resp.errors = [] ∧
    ¬ (c4resp.errors.length = c4resp.failedCount) :=
  ⟨rfl, rfl, rfl, rfl, by decide⟩

/-- C4 (amended). Every sync response satisfies
`processedCount = successCount + failedCount`; the `errors` list,
however, only covers the components that pass the `packages` filter:
`len(errors) + (number of parsed components excluded by the filter)
= failedCount`, so `len(errors) = failedCount` exactly when no parsed
component is excluded. -/
theorem syncComponents_counts (f : String → List ℚ) (store : VectorStoreState)
    (parsed : List ParsedComponent) (request : ComponentSyncRequest)
    (duration : Nat) :
    (syncComponents f store parsed request duration).1.processedCount
        = (syncComponents f store parsed request duration).1.successCount
          + (syncComponents f store parsed request duration).1.failedCount ∧
    (syncComponents f store parsed request duration).1.errors.length
        + (parsed.length - (filterComponentsToSync parsed request.packages).length)
      = (syncComponents f store parsed request duration).1.failedCount := by
  have hse := sync_success_errors_count f store parsed request duration
  have hle := filterComponentsToSync_length_le parsed request.packages
  have hproc : (syncComponents f store parsed request duration).1.processedCount
      = parsed.length := rfl
  have hfail : (syncComponents f store parsed request duration).1.failedCount
      = parsed.length - (syncComponents f store parsed request duration).1.successCount :=
    rfl
  omega

/- ### C6 — totalComponents in Status -/

/-- The count specified by the claim (spec-side definition, used only
to compare against the source's `getStats`): the number of distinct
`(packageName, componentName)` pairs among the stored documents. -/
def distinctPairCount (docs : List VectorDocument) : Nat :=
  (docs.map (fun doc => (doc.metadata.packageName, doc.metadata.componentName))).dedup.length

/-- A successfully parsed component in package `pkg` named `name` with
description `X`. -/
def c6comp (pkg name : String) : ParsedComponent :=
  { info := { packageName := pkg, componentName := name, description := "X",
              api := "", examples := [], tags := ["ui"], version := "1.0.0",
              dependencies := [], updatedAt := "" },
    filePath := "", status := "success", error := none }

/-- The store after syncing two components that share the component
name `Button` but live in different packages `p` and `q`. -/
def c6store : VectorStoreState :=
  (syncComponents constEmbed ⟨[], []⟩ [c6comp "p" "Button", c6comp "q" "Button"]
    { packages := none, forceReindex := false } 0).2

/-- C6 counterexample. After syncing two components with the same
`componentName` under different `packageName`s, the store holds two
documents and two distinct `(packageName, componentName)` pairs, but
`Status` reports `totalComponents = 1`: `getStats` counts distinct
`componentName`s only, ignoring the package. -/
theorem getStats_pair_counterexample :
    (getStats c6store 0 0 "").totalComponents = 1 ∧
    distinctPairCount c6store.documents = 2 ∧
    ¬ ((getStats c6store 0 0 "").totalComponents
        = distinctPairCount c6store.documents) := by
  refine ⟨by decide, by decide, by decide⟩

theorem dedup_length_map_le [DecidableEq α] [DecidableEq β]
    (l : List α) (g : α → β) :
    (l.map g).dedup.length ≤ l.dedup.length := by
  rw [← List.card_toFinset, ← List.card_toFinset]
  have h : (l.map g).toFinset = l.toFinset.image g := by
    ext b
    simp [List.mem_toFinset, List.mem_map, Finset.mem_image]
  rw [h]
  exact Finset.card_image_le

/-- C6 (amended). After any sync, `Status` reports `totalComponents`
equal to the number of distinct `componentName` values among the stored
documents — components with the same name under different packages
count once, so the reported value is at most (and not in general equal
to) the number of distinct `(packageName, componentName)` pairs. -/
theorem getStats_totalComponents (f : String → List ℚ)
    (store : VectorStoreState) (parsed : List ParsedComponent)
    (request : ComponentSyncRequest) (duration indexFileSize docsFileSize : Nat)
    (now : String) :
    (getStats (syncComponents f store parsed request duration).2
        indexFileSize docsFileSize now).totalComponents
      = ((syncComponents f store parsed request duration).2.documents.map
          (fun doc => doc.metadata.componentName)).dedup.length ∧
    (getStats (syncComponents f store parsed request duration).2
        indexFileSize docsFileSize now).totalComponents
      ≤ distinctPairCount (syncComponents f store parsed request duration).2.documents := by
  constructor
  · rfl
  · show ((syncComponents f store parsed request duration).2.documents.map
        (fun doc => doc.metadata.componentName)).dedup.length ≤ _
    have hmm : (syncComponents f store parsed request duration).2.documents.map
          (fun doc => doc.metadata.componentName)
        = ((syncComponents f store parsed request duration).2.documents.map
            (fun doc => (doc.metadata.packageName, doc.metadata.componentName))).map
            Prod.snd := by
      rw [List.map_map]
      rfl
    rw [hmm]
    exact dedup_length_map_le _ Prod.snd

/- ### C10 — descriptions are never empty; the description facet -/

theorem trimChars_eq_nil_iff (l : List Char) :
    trimChars l = [] ↔ ∀ c ∈ l, c.isWhitespace = true := by
  unfold trimChars
  rw [List.reverse_eq_nil_iff, List.dropWhile_eq_nil_iff]
  constructor
  · intro h c hc
    have hsplit : List.takeWhile Char.isWhitespace l
        ++ List.dropWhile Char.isWhitespace l = l :=
      List.takeWhile_append_dropWhile _ _
    rw [← hsplit] at hc
    rcases List.mem_append.mp hc with h1 | h2
    · exact List.mem_takeWhile_imp h1
    · exact h _ (List.mem_reverse.mpr h2)
  · intro h c hc
    have hc2 : c ∈ l.dropWhile Char.isWhitespace := List.mem_reverse.mp hc
    exact h c (((List.dropWhile_suffix Char.isWhitespace).sublist).mem hc2)

theorem exists_not_ws_of_dropWhile_ne_nil (p : Char → Bool) (l : List Char)
    (h : l.dropWhile p ≠ []) : ∃ a ∈ l.dropWhile p, p a = false := by
  induction l with
  | nil => exact absurd rfl h
  | cons b bm ih =>
    rw [List.dropWhile_cons] at h ⊢
    by_cases hb : p b = true
    · rw [if_pos hb] at h ⊢
      exact ih h
    · rw [if_neg hb] at h ⊢
      exact ⟨b, List.mem_cons_self b bm, Bool.eq_false_iff.mpr hb⟩

theorem exists_not_ws_of_trimChars_ne_nil (l : List Char)
    (h : trimChars l ≠ []) : ∃ a ∈ trimChars l, a.isWhitespace = false := by
  unfold trimChars at h ⊢
  rw [ne_eq, List.reverse_eq_nil_iff] at h
  obtain ⟨a, ha, hws⟩ := exists_not_ws_of_dropWhile_ne_nil Char.isWhitespace _ h
  exact ⟨a, List.mem_reverse.mpr ha, hws⟩

theorem strTrim_eq_empty_iff (s : String) :
    strTrim s = "" ↔ ∀ c ∈ s.data, c.isWhitespace = true := by
  rw [← trimChars_eq_nil_iff]
  constructor
  · intro h
    exact congrArg String.data h
  · intro h
    unfold strTrim
    rw [h]

theorem strTrim_strTrim_ne (s : String) (h : strTrim s ≠ "") :
    strTrim (strTrim s) ≠ "" := by
  have hl : trimChars s.data ≠ [] := by
    intro he
    exact h (by unfold strTrim; rw [he])
  obtain ⟨a, ha, hws⟩ := exists_not_ws_of_trimChars_ne_nil s.data hl
  intro he
  have := (strTrim_eq_empty_iff (strTrim s)).mp he a ha
  rw [this] at hws
  exact Bool.true_eq_false.mp hws

theorem componentFallback_props (dirName : String) :
    strTrim (componentFallbackDescription dirName) ≠ "" ∧
    componentFallbackDescription dirName ≠ "" := by
  constructor
  · intro h
    have hc : ('c' : Char) ∈ (componentFallbackDescription dirName).data := by
      unfold componentFallbackDescription
      rw [show (capitalizeComponentName dirName ++ " component").data
          = (capitalizeComponentName dirName).data ++ (" component").data from rfl]
      exact List.mem_append.mpr (Or.inr (by decide))
    have := (strTrim_eq_empty_iff _).mp h 'c' hc
    exact absurd this (by decide)
  · intro h
    have hd : (componentFallbackDescription dirName).data = [] := by
      rw [h]
    unfold componentFallbackDescription at hd
    rw [show (capitalizeComponentName dirName ++ " component").data
        = (capitalizeComponentName dirName).data ++ (" component").data from rfl,
      List.append_eq_nil] at hd
    exact absurd hd.2 (by decide)

theorem extractDescription_props (dirName : String) (file : Option String) :
    strTrim (extractDescription dirName file) ≠ "" ∧
    extractDescription dirName file ≠ "" := by
  rcases file with _ | content
  · exact componentFallback_props dirName
  · unfold extractDescription
    dsimp only
    cases hsi : (strSplitNl content).findIdx? (fun line => strTrim line == "---") with
    | none =>
      dsimp only
      exact componentFallback_props dirName
    | some startIndex =>
      dsimp only
      cases hf : (strSplitNl content).enum.find? (fun p =>
          decide (startIndex < p.1) && strStartsWith p.2 "## ") with
      | none =>
        dsimp only
        exact componentFallback_props dirName
      | some p =>
        dsimp only
        by_cases hd : (strTrim (strJoin " "
            ((((strSplitNl content).take p.1).drop (startIndex + 1)).filter
              (fun line => !(strStartsWith line "---") && strTrim line != ""))) == "") = true
        · rw [if_pos hd]
          exact componentFallback_props dirName
        · rw [if_neg hd]
          have hne : strTrim (strJoin " "
              ((((strSplitNl content).take p.1).drop (startIndex + 1)).filter
                (fun line => !(strStartsWith line "---") && strTrim line != ""))) ≠ "" := by
            intro he
            apply hd
            rw [he]
            rfl
          exact ⟨strTrim_strTrim_ne _ hne, hne⟩

theorem embedTexts_cons_ok (f : String → List ℚ) (t : String) (ts : List String)
    (ht : (strTrim t != "") = true) :
    embedTexts f (t :: ts) =
      Except.ok (f t :: (ts.filter (fun text => strTrim text != "")).map f) := by
  unfold embedTexts
  dsimp only
  rw [List.length_cons, if_neg (Nat.succ_ne_zero _),
    @List.filter_cons_of_pos String (fun text => strTrim text != "") t ts ht,
    List.length_cons, if_neg (Nat.succ_ne_zero _), List.map_cons]

theorem createComponentVectors_desc_head (f : String → List ℚ)
    (c : ComponentDoc) (h : strTrim c.description ≠ "") :
    0 < (vectorsOf f c).length ∧
    (vectorsOf f c).head?.map (fun d => d.metadata.type) = some "description" := by
  have hdesc : c.description ≠ "" := by
    intro he
    apply h
    rw [he]
    rfl
  have hb1 : (c.description != "") = true := bne_iff_ne.mpr hdesc
  have hb2 : (strTrim c.description != "") = true := bne_iff_ne.mpr h
  have hTexts : componentTexts c = c.description ::
      ((if (c.api != "" && c.api != "API documentation not available") = true
          then [c.api] else [])
        ++ c.examples.filter (fun ex => strTrim ex != "")) := by
    unfold componentTexts
    rw [if_pos hb1, List.append_assoc, List.singleton_append]
  have hMeta : componentMetadataList c = mkFacetMetadata c "description" ::
      ((if (c.api != "" && c.api != "API documentation not available") = true
          then [mkFacetMetadata c "api"] else [])
        ++ (c.examples.filter (fun ex => strTrim ex != "")).map
            (fun _ => mkFacetMetadata c "example")) := by
    unfold componentMetadataList
    rw [if_pos hb1, List.append_assoc, List.singleton_append]
  unfold vectorsOf createComponentVectors
  dsimp only
  rw [hTexts, hMeta, List.length_cons, if_neg (Nat.succ_ne_zero _),
    embedTexts_cons_ok f _ _ hb2]
  dsimp only [Except.toOption, Option.getD]
  simp only [mapWithIndex, mapWithIndexGo, List.length_cons, List.head?_cons,
    List.getD_cons_zero]
  constructor
  · exact Nat.succ_pos _
  · rfl

/-- C10. The parser's extracted description is never empty (and never
purely whitespace): every branch either returns the trimmed non-blank
slab or falls back to `"<ComponentName> component"`. Consequently, for
a component whose description is not purely whitespace, a successful
facet expansion always produces at least one vector document, and its
first document is the description facet. -/
theorem parser_description_nonempty :
    (∀ dirName file, extractDescription dirName file ≠ "" ∧
      strTrim (extractDescription dirName file) ≠ "") ∧
    (∀ (f : String → List ℚ) (c : ComponentDoc), strTrim c.description ≠ "" →
      0 < (vectorsOf f c).length ∧
      (vectorsOf f c).head?.map (fun d => d.metadata.type) = some "description") :=
  ⟨fun dirName file =>
    ⟨(extractDescription_props dirName file).2, (extractDescription_props dirName file).1⟩,
   fun f c h => createComponentVectors_desc_head f c h⟩

/-- The component used to witness C10. -/
def c10comp : ComponentDoc :=
  { packageName := "@private/basic-components", componentName := "Button",
    description := "Button component", api := "", examples := [],
    tags := ["ui"], version := "1.0.0", dependencies := [], updatedAt := "" }

/-- Witness for C10 at a concrete component. -/
theorem parser_description_nonempty_witness :
    strTrim c10comp.description ≠ "" ∧
    0 < (vectorsOf constEmbed c10comp).length ∧
    (vectorsOf constEmbed c10comp).head?.map (fun d => d.metadata.type)
      = some "description" :=
  ⟨by decide,
   (parser_description_nonempty.2 constEmbed c10comp (by decide)).1,
   (parser_description_nonempty.2 constEmbed c10comp (by decide)).2⟩

/- ### C5 — the shape of vector document ids -/

theorem mapWithIndexGo_length (f : Nat → α → β) :
    ∀ (l : List α) (j : Nat), (mapWithIndexGo f j l).length = l.length := by
  intro l
  induction l with
  | nil => intro j; rfl
  | cons a rest ih =>
    intro j
    show (mapWithIndexGo f (j + 1) rest).length + 1 = rest.length + 1
    rw [ih]

theorem mapWithIndex_length (f : Nat → α → β) (l : List α) :
    (mapWithIndex f l).length = l.length :=
  mapWithIndexGo_length f l 0

theorem mapWithIndexGo_getD (f : Nat → α → β) :
    ∀ (l : List α) (j i : Nat) (d : β) (hd : α), i < l.length →
      (mapWithIndexGo f j l).getD i d = f (j + i) (l.getD i hd) := by
  intro l
  induction l with
  | nil =>
    intro j i d hd h
    exact absurd h (by simp)
  | cons a rest ih =>
    intro j i d hd h
    cases i with
    | zero =>
      show f j a = f (j + 0) a
      rw [Nat.add_zero]
    | succ k =>
      show (mapWithIndexGo f (j + 1) rest).getD k d = f (j + (k + 1)) (rest.getD k hd)
      rw [ih (j + 1) k d hd (by simpa using h)]
      congr 1
      omega

theorem mapWithIndex_getD (f : Nat → α → β) (l : List α) (i : Nat) (d : β)
    (hd : α) (h : i < l.length) :
    (mapWithIndex f l).getD i d = f i (l.getD i hd) := by
  unfold mapWithIndex
  rw [mapWithIndexGo_getD f l 0 i d hd h, Nat.zero_add]

/-- The 8-character prefix of an MD5 hex digest has exactly 8 characters. -/
theorem strSlice_md5hex_length (m : String) : (strSlice (md5hex m) 8).length = 8 := by
  show (List.take 8 (md5hex m).data).length = 8
  rw [List.length_take]
  have h32 : (md5hex m).data.length = 32 := length_md5hex m
  rw [h32]
  decide

theorem componentMetadataList_length (c : ComponentDoc) :
    (componentMetadataList c).length = (componentTexts c).length := by
  by_cases h1 : (c.description != "") = true <;>
    by_cases h2 : (c.api != "" && c.api != "API documentation not available") = true <;>
      simp [componentMetadataList, componentTexts, h1, h2]

theorem componentMetadataList_mem (c : ComponentDoc) (md : DocMetadata)
    (h : md ∈ componentMetadataList c) :
    md.componentName = c.componentName := by
  unfold componentMetadataList at h
  rcases List.mem_append.mp h with h' | hex
  · rcases List.mem_append.mp h' with hd | ha
    · by_cases h1 : (c.description != "") = true
      · rw [if_pos h1] at hd
        rw [List.mem_singleton.mp hd]
        rfl
      · rw [if_neg h1] at hd
        exact absurd hd (by simp)
    · by_cases h2 : (c.api != "" && c.api != "API documentation not available") = true
      · rw [if_pos h2] at ha
        rw [List.mem_singleton.mp ha]
        rfl
      · rw [if_neg h2] at ha
        exact absurd ha (by simp)
  · rcases List.mem_map.mp hex with ⟨x, _, hx⟩
    rw [← hx]
    rfl

/-- Out-of-range default for positional document access in the
statements below. -/
def dummyDoc : VectorDocument :=
  { id := "", content := "", embedding := [], metadata := defaultFacetMetadata }

/-- C5 (amended). Every vector document produced by facet expansion has
an id of the form `<componentName>-<t>-<hash8>`, where `hash8` is the
8-character prefix of the MD5 hex digest of
`<componentName>-<t>-<content>` — but `t` equals the document's
metadata type only for the `description` and `api` facets; for an
`example` facet, `t` is `example-<i>` with `i` the document's position
in the component's batch. The ids are values of the pure function
`generateDocumentId`, hence deterministic for unchanged input. -/
theorem vector_id_shape (f : String → List ℚ) (c : ComponentDoc) (i : Nat)
    (h : i < (vectorsOf f c).length) :
    ∃ hx : String, hx.length = 8 ∧
      ((vectorsOf f c).getD i dummyDoc).id
        = ((vectorsOf f c).getD i dummyDoc).metadata.componentName ++ "-"
          ++ (if ((vectorsOf f c).getD i dummyDoc).metadata.type = "example"
              then "example-" ++ toString i
              else ((vectorsOf f c).getD i dummyDoc).metadata.type) ++ "-" ++ hx ∧
      hx = strSlice (md5hex (((vectorsOf f c).getD i dummyDoc).metadata.componentName
          ++ "-"
          ++ (if ((vectorsOf f c).getD i dummyDoc).metadata.type = "example"
              then "example-" ++ toString i
              else ((vectorsOf f c).getD i dummyDoc).metadata.type) ++ "-"
          ++ ((vectorsOf f c).getD i dummyDoc).content)) 8 := by
  unfold vectorsOf createComponentVectors at h ⊢
  dsimp only at h ⊢
  by_cases h0 : (componentTexts c).length = 0
  · rw [if_pos h0] at h
    simp [Except.toOption] at h
  · rw [if_neg h0] at h ⊢
    rcases hemb : embedTexts f (componentTexts c) with e | embeddings
    · rw [hemb] at h
      dsimp only at h
      simp [Except.toOption] at h
    · rw [hemb] at h
      dsimp only at h
      dsimp only
      simp only [Except.toOption, Option.getD_some] at h ⊢
      -- the embeddings are one per valid text, hence no more than the
      -- number of texts, hence within the metadata list
      have hvalid : embeddings
          = ((componentTexts c).filter (fun text => strTrim text != "")).map f := by
        unfold embedTexts at hemb
        rw [if_neg h0] at hemb
        by_cases hv : ((componentTexts c).filter
            (fun text => strTrim text != "")).length = 0
        · rw [if_pos hv] at hemb
          exact absurd hemb (by simp)
        · rw [if_neg hv] at hemb
          exact (Except.ok.injEq _ _).mp hemb.symm
      have hi : i < embeddings.length := by
        rw [mapWithIndex_length] at h
        exact h
      have hlenmd : i < (componentMetadataList c).length := by
        rw [componentMetadataList_length]
        calc i < embeddings.length := hi
          _ ≤ (componentTexts c).length := by
              rw [hvalid, List.length_map]
              exact List.length_filter_le _ _
      have hmem : (componentMetadataList c).getD i defaultFacetMetadata
          ∈ componentMetadataList c := by
        rw [List.getD_eq_getElem _ _ hlenmd]
        exact List.getElem_mem hlenmd
      have hname : ((componentMetadataList c).getD i defaultFacetMetadata).componentName
          = c.componentName :=
        componentMetadataList_mem c _ hmem
      rw [mapWithIndex_getD _ embeddings i dummyDoc [] hi]
      dsimp only
      rw [hname]
      by_cases hty : ((componentMetadataList c).getD i defaultFacetMetadata).type
          = "example"
      · rw [if_pos hty, if_pos (beq_iff_eq.mpr hty)]
        exact ⟨_, strSlice_md5hex_length _, rfl, rfl⟩
      · rw [if_neg hty, if_neg (fun hb => hty (beq_iff_eq.mp hb))]
        exact ⟨_, strSlice_md5hex_length _, rfl, rfl⟩

/-- The component used for the C5 counterexample and witness: a
description facet and one example facet. -/
def c5comp : ComponentDoc :=
  { packageName := "@private/basic-components", componentName := "Name",
    description := "D", api := "", examples := ["E"],
    tags := ["ui"], version := "1.0.0", dependencies := [], updatedAt := "" }

/-- C5 counterexample. For a component with a description and one
example, the example facet's document (position 1 in the batch) has id
`Name-example-1-<hash8>`: the middle segment is `example-1`, not the
metadata type `example`, so the id is NOT of the form
`<componentName>-<facetType>-<hash8>` for any 8-character hash — the
lengths already disagree. -/
theorem vector_id_claim_counterexample :
    ¬ (∀ (i : Nat), i < (vectorsOf constEmbed c5comp).length →
        ∃ hx : String, hx.length = 8 ∧
          ((vectorsOf constEmbed c5comp).getD i dummyDoc).id
            = ((vectorsOf constEmbed c5comp).getD i dummyDoc).metadata.componentName
              ++ "-" ++ ((vectorsOf constEmbed c5comp).getD i dummyDoc).metadata.type
              ++ "-" ++ hx) := by
  intro hcl
  obtain ⟨hx, hlen, heq⟩ := hcl 1 (by decide)
  have hdoc : (vectorsOf constEmbed c5comp).getD 1 dummyDoc
      = { id := generateDocumentId "Name" ("example-" ++ toString 1) "E",
          content := "E", embedding := [1],
          metadata := mkFacetMetadata c5comp "example" } := rfl
  rw [hdoc] at heq
  dsimp only [mkFacetMetadata, c5comp] at heq
  have hL := congrArg String.length heq
  have h1 : (generateDocumentId "Name" ("example-" ++ toString 1) "E").length = 23 := by
    unfold generateDocumentId
    rw [String.length_append, String.length_append, String.length_append,
      String.length_append, strSlice_md5hex_length]
    rfl
  rw [h1, String.length_append, String.length_append, String.length_append,
    String.length_append, hlen] at hL
  exact absurd hL (by decide)

/-- Witness for C5 (amended) at position 0 (the description facet) of
the concrete component `c5comp`. -/
theorem vector_id_shape_witness :
    0 < (vectorsOf constEmbed c5comp).length ∧
    ∃ hx : String, hx.length = 8 ∧
      ((vectorsOf constEmbed c5comp).getD 0 dummyDoc).id
        = ((vectorsOf constEmbed c5comp).getD 0 dummyDoc).metadata.componentName ++ "-"
          ++ (if ((vectorsOf constEmbed c5comp).getD 0 dummyDoc).metadata.type = "example"
              then "example-" ++ toString 0
              else ((vectorsOf constEmbed c5comp).getD 0 dummyDoc).metadata.type)
          ++ "-" ++ hx ∧
      hx = strSlice (md5hex (((vectorsOf constEmbed c5comp).getD 0 dummyDoc).metadata.componentName
          ++ "-"
          ++ (if ((vectorsOf constEmbed c5comp).getD 0 dummyDoc).metadata.type = "example"
              then "example-" ++ toString 0
              else ((vectorsOf constEmbed c5comp).getD 0 dummyDoc).metadata.type) ++ "-"
          ++ ((vectorsOf constEmbed c5comp).getD 0 dummyDoc).content)) 8 :=
  ⟨by decide, vector_id_shape constEmbed c5comp 0 (by decide)⟩

/- ### C8 — the vector store's TopK search -/

/-- The store invariant relating the two tables: a document and an
index entry with the same id carry the same embedding (maintained by
`addDocuments`, which writes both tables from the same batch). -/
def StoreConsistent (store : VectorStoreState) : Prop :=
  ∀ e ∈ store.index, ∀ d ∈ store.documents, d.id = e.id → d.embedding = e.embedding

theorem docMapGet_eq (documents : List VectorDocument) (id : String)
    (d : VectorDocument) (h : docMapGet documents id = some d) :
    d ∈ documents ∧ d.id = id := by
  unfold docMapGet at h
  have hp := List.find?_some h
  exact ⟨List.mem_reverse.mp (List.mem_of_find?_eq_some h), beq_iff_eq.mp hp⟩

theorem similaritySearch_take_facts (sim : List ℚ → List ℚ → ℚ)
    (index : List IndexEntry) (qv : List ℚ) (θ : ℚ) (topK : Nat) :
    ∀ x ∈ (((index.map (fun item => (item, sim qv item.embedding))).filter
        (fun p => decide (θ ≤ p.2))).mergeSort
          (fun a b => decide (b.2 ≤ a.2))).take topK,
      x.1 ∈ index ∧ x.2 = sim qv x.1.embedding ∧ θ ≤ x.2 := by
  intro x hx
  have hx1 := List.mem_of_mem_take hx
  have hx2 := List.mem_mergeSort.mp hx1
  have hx3 := List.mem_filter.mp hx2
  rcases List.mem_map.mp hx3.1 with ⟨entry, hentry, hmap⟩
  refine ⟨?_, ?_, of_decide_eq_true hx3.2⟩
  · rw [← hmap]
    exact hentry
  · rw [← hmap]

/-- C8. For every similarity function, store satisfying the id
consistency invariant, query vector, `topK` and threshold, the TopK
search returns at most `topK` documents, every returned document's
similarity with the query is at least the threshold, and the returned
documents are ordered by non-ascending similarity. -/
theorem similaritySearch_spec (sim : List ℚ → List ℚ → ℚ)
    (store : VectorStoreState) (qv : List ℚ) (topK : Nat) (θ : ℚ)
    (hcons : StoreConsistent store) :
    (similaritySearch sim store qv topK θ).length ≤ topK ∧
    (∀ d ∈ similaritySearch sim store qv topK θ, θ ≤ sim qv d.embedding) ∧
    List.Pairwise (fun d1 d2 => sim qv d2.embedding ≤ sim qv d1.embedding)
      (similaritySearch sim store qv topK θ) := by
  unfold similaritySearch
  by_cases hidx : store.index.length = 0
  · rw [if_pos hidx]
    exact ⟨by simp, by simp, List.Pairwise.nil⟩
  · rw [if_neg hidx]
    dsimp only
    have hfacts := similaritySearch_take_facts sim store.index qv θ topK
    refine ⟨?_, ?_, ?_⟩
    · refine le_trans (List.length_filterMap_le _ _) ?_
      rw [List.length_take]
      exact inf_le_left
    · intro d hd
      rcases List.mem_filterMap.mp hd with ⟨x, hxmem, hg⟩
      obtain ⟨hddocs, hdid⟩ := docMapGet_eq store.documents x.1.id d hg
      obtain ⟨hx1, hx2, hx3⟩ := hfacts x hxmem
      have hde : d.embedding = x.1.embedding := hcons x.1 hx1 d hddocs hdid
      rw [hde, ← hx2]
      exact hx3
    · have htrans : ∀ a b c : IndexEntry × ℚ,
          decide (b.2 ≤ a.2) = true → decide (c.2 ≤ b.2) = true →
          decide (c.2 ≤ a.2) = true :=
        fun a b c h1 h2 =>
          decide_eq_true (le_trans (of_decide_eq_true h2) (of_decide_eq_true h1))
      have htotal : ∀ a b : IndexEntry × ℚ,
          (decide (b.2 ≤ a.2) || decide (a.2 ≤ b.2)) = true := by
        intro a b
        rcases le_total b.2 a.2 with h | h <;> simp [h]
      have hpw := @List.sorted_mergeSort (IndexEntry × ℚ)
        (fun a b => decide (b.2 ≤ a.2)) htrans htotal
        ((store.index.map (fun item => (item, sim qv item.embedding))).filter
          (fun p => decide (θ ≤ p.2)))
      have hpwtake := List.Pairwise.sublist (List.take_sublist topK _) hpw
      refine List.pairwise_filterMap.mpr ?_
      refine List.Pairwise.imp_of_mem ?_ hpwtake
      intro a b ha hb hab
      intro d1 hd1 d2 hd2
      obtain ⟨ha1, ha2, _⟩ := hfacts a ha
      obtain ⟨hb1, hb2, _⟩ := hfacts b hb
      obtain ⟨hd1docs, hd1id⟩ := docMapGet_eq store.documents a.1.id d1
        (Option.mem_def.mp hd1)
      obtain ⟨hd2docs, hd2id⟩ := docMapGet_eq store.documents b.1.id d2
        (Option.mem_def.mp hd2)
      have he1 : d1.embedding = a.1.embedding := hcons a.1 ha1 d1 hd1docs hd1id
      have he2 : d2.embedding = b.1.embedding := hcons b.1 hb1 d2 hd2docs hd2id
      rw [he1, he2, ← ha2, ← hb2]
      exact of_decide_eq_true hab

/-- The concrete store and parameters witnessing C8. -/
def c8store : VectorStoreState :=
  { documents := [⟨"a", "x", [1], defaultFacetMetadata⟩],
    index := [⟨"a", [1], defaultFacetMetadata⟩] }

/-- Witness for C8 at a one-document store with a trivial similarity
function. -/
theorem similaritySearch_spec_witness :
    StoreConsistent c8store ∧
    ((similaritySearch (fun _ _ => 1) c8store [1] 5 0).length ≤ 5 ∧
      (∀ d ∈ similaritySearch (fun _ _ => 1) c8store [1] 5 0,
        (0 : ℚ) ≤ (fun _ _ => (1 : ℚ)) [1] d.embedding) ∧
      List.Pairwise (fun d1 d2 =>
          (fun _ _ => (1 : ℚ)) [1] d2.embedding
            ≤ (fun _ _ => (1 : ℚ)) [1] d1.embedding)
        (similaritySearch (fun _ _ => 1) c8store [1] 5 0)) :=
  ⟨by unfold StoreConsistent; decide,
   similaritySearch_spec (fun _ _ => 1) c8store [1] 5 0 (by unfold StoreConsistent; decide)⟩

end RCI
